import Mathlib

/-!
Shallow embedding of the conduit IPC library (Go): message envelopes
(`types.go`), the size-limited reader (`limited_reader.go`), the Unix-socket
server core (`server` package) and client core (`client` package).

Pure functions are translated directly; stateful Go methods become explicit
state-passing functions, with external effects (transport reads/writes, dial
outcomes, filesystem removal results) supplied as explicit environment values.
Machine integers (`int64`) are modelled as `Int` with explicit two's-complement
wrapping where overflow is possible.
-/

namespace Conduit

/-- Error values that the modelled operations can return.  Distinct Go error
values (sentinel errors such as `ErrNotConnected` / `ErrClientClosed`, wrapped
marshal/write/dial failures, the `LimitedReader` size error, `io.EOF`) are
distinct constructors. -/
inductive GoErr where
  | limitExceeded (limit : Int)
  | marshalFailed
  | notConnected
  | clientClosed
  | dialFailed
  | writeFailed
  | listenerCloseFailed
  | removeFailed
  | transportCloseFailed
  | eof
deriving DecidableEq, Repr

/-- A well-formed JSON document, the shape carried by `json.RawMessage`
payloads on the wire. -/
inductive JVal where
  | null
  | bool (b : Bool)
  | num (n : Int)
  | str (s : String)
  | arr (elems : List JVal)
  | obj (fields : List (String × JVal))

/-- A Go value passed as `interface{}` to `json.Marshal`: either a value whose
JSON encoding is the given document, or a value of an unsupported kind
(channel, function, ...) on which `json.Marshal` fails. -/
inductive GoValue where
  | jval (j : JVal)
  | unsupported

/-- `json.Marshal` on an `interface{}` value: succeeds exactly on values of
serializable kind, producing their JSON document. -/
def jsonMarshal : GoValue → Option JVal
  | .jval j => some j
  | .unsupported => none

/-- `json.Unmarshal` of a well-formed JSON document into a target of the
value's own shape recovers the value. -/
def jsonUnmarshal (j : JVal) : Option GoValue :=
  some (.jval j)

/-- `v` is serializable under the JSON encoding. -/
def Serializable (v : GoValue) : Prop :=
  (jsonMarshal v).isSome = true

instance (v : GoValue) : Decidable (Serializable v) := by
  unfold Serializable; infer_instance

/-- `Message` from `types.go`: a type tag and a raw JSON payload.  (Lean
reserves the identifier `Type`, so the Go field `Type` is rendered `type`.) -/
structure Message where
  type : String
  Payload : JVal

/-- `NewMessage` from `types.go`: marshals the payload and, on success, stores
the type tag and the payload bytes unmodified.  Returns `none` exactly when
`json.Marshal` fails. -/
def NewMessage (msgType : String) (payload : GoValue) : Option Message :=
  match jsonMarshal payload with
  | none => none
  | some payloadBytes => some { type := msgType, Payload := payloadBytes }

/-- `Message.UnmarshalPayload` from `types.go`, modelled as a call returning
both the decode result and the message afterwards (the Go method reads
`m.Payload` and never mutates the message). -/
def Message.UnmarshalPayloadCall (m : Message) : Option GoValue × Message :=
  (jsonUnmarshal m.Payload, m)

/-! ## LimitedReader (`limited_reader.go`) -/

/-- Two's-complement wrapping of an `Int` into the `int64` range, used where
the Go code accumulates into an `int64`. -/
def int64wrap (x : Int) : Int :=
  (x + 2 ^ 63) % 2 ^ 64 - 2 ^ 63

/-- `LimitedReader`: wraps a byte source and enforces a maximum cumulative
read size. -/
structure LimitedReader where
  limit : Int
  consumed : Int
deriving DecidableEq, Repr

/-- `NewLimitedReader`: consumed starts at zero. -/
def NewLimitedReader (limit : Int) : LimitedReader :=
  { limit := limit, consumed := 0 }

/-- One call to `LimitedReader.Read`.  The underlying reader's result for this
call is supplied as `res = (n, err)`; the model returns the updated reader and
the `(n, err)` pair the wrapper returns: the count is always passed through,
`consumed` is increased by `n` (with `int64` wrapping), and once `consumed`
exceeds the limit the error is replaced by the size-limit error. -/
def LimitedReader.Read (l : LimitedReader) (res : Nat × Option GoErr) :
    LimitedReader × (Nat × Option GoErr) :=
  let n := res.1
  let consumed := int64wrap (l.consumed + n)
  let l1 := { l with consumed := consumed }
  if l1.limit < consumed then (l1, (n, some (.limitExceeded l1.limit)))
  else (l1, res)

/-- A whole sequence of `Read` calls: feeds each underlying result through the
reader in order and collects the wrapper's returned results. -/
def LimitedReader.runReads (l : LimitedReader) :
    List (Nat × Option GoErr) → List (Nat × Option GoErr)
  | [] => []
  | r :: rs =>
    let step := l.Read r
    step.2 :: step.1.runReads rs

/-! ## Per-connection context store

Both `server.Connection` and `client.Client` hold a `map[string]interface{}`
guarded by a lock, with identical get/set code.  A Go map is modelled as an
association list where `set` prepends and `get` returns the most recent
binding; the `(value, ok)` pair returned by a map read is an `Option`. -/

abbrev CtxMap := List (String × GoValue)

/-- Map read: `val, ok := m[key]`. -/
def ctxGet (m : CtxMap) (k : String) : Option GoValue :=
  match m with
  | [] => none
  | (k1, v) :: rest => if k1 = k then some v else ctxGet rest k

/-- Map write: `m[key] = value`. -/
def ctxSet (m : CtxMap) (k : String) (v : GoValue) : CtxMap :=
  (k, v) :: m

/-! ## Server-side `Connection` (`server` package) -/

/-- A server-side `Connection`: the `done` channel (closed flag), the owned
transport, and the per-connection context map.  The transport's behaviour is
part of the environment, carried as fields: `transportCloseErr` is what
`conn.Close()` on the transport would return, `sendWriteErr` is the outcome of
the next encoded write on it.  `transportCloseCount` counts how many times the
transport's own close has actually been invoked. -/
structure Connection where
  id : String
  doneClosed : Bool
  transportCloseCount : Nat
  transportCloseErr : Option GoErr
  sendWriteErr : Option GoErr
  context : CtxMap

/-- `Connection.Close`: under the mutex, if `done` is already closed this is a
no-op returning `nil`; otherwise it closes `done` and closes the transport,
returning the transport's close error. -/
def Connection.Close (c : Connection) : Connection × Option GoErr :=
  if c.doneClosed then (c, none)
  else
    ({ c with doneClosed := true, transportCloseCount := c.transportCloseCount + 1 },
     c.transportCloseErr)

/-- A sequence of `n` (mutex-serialized) calls to `Connection.Close`,
returning the final connection state and the list of returned errors. -/
def Connection.closeCalls : Nat → Connection → Connection × List (Option GoErr)
  | 0, c => (c, [])
  | n + 1, c =>
    let first := Connection.Close c
    let rest := Connection.closeCalls n first.1
    (rest.1, first.2 :: rest.2)

/-- `Connection.Send`: builds the envelope with `NewMessage` (returning the
marshal error on failure), applies the write deadline, then encodes it onto
the transport, whose write outcome is the connection's `sendWriteErr`. -/
def Connection.Send (c : Connection) (msgType : String) (payload : GoValue) :
    Option GoErr :=
  match NewMessage msgType payload with
  | none => some GoErr.marshalFailed
  | some _ => c.sendWriteErr

/-- `Connection.GetContext`. -/
def Connection.GetContext (c : Connection) (k : String) : Option GoValue :=
  ctxGet c.context k

/-- `Connection.SetContext`. -/
def Connection.SetContext (c : Connection) (k : String) (v : GoValue) : Connection :=
  { c with context := ctxSet c.context k v }

/-! ## Server core (`server` package) -/

/-- The `Server` lifecycle state relevant to `Stop`: whether `closeOnce` has
fired, whether the `done` channel is closed, whether `Start` installed a
listener (`s.listener != nil`), the registered connections, and whether
`os.RemoveAll` has been invoked on the socket path. -/
structure Server where
  closeOnceFired : Bool
  doneClosed : Bool
  hasListener : Bool
  conns : List Connection
  removeAllCalled : Bool

/-- Environment for one `Stop` call: what `listener.Close()` and
`os.RemoveAll(socketPath)` return if invoked. -/
structure StopEnv where
  listenerCloseErr : Option GoErr
  removeAllErr : Option GoErr

/-- `Server.Stop`: inside `closeOnce.Do` it closes `done`, closes the listener
if one exists (recording its error), closes every registered connection
(discarding their errors), and removes the socket path, surfacing the removal
error only when no listener-close error occurred.  Outside the first call it
does nothing and returns `nil`. -/
def Server.Stop (s : Server) (env : StopEnv) : Server × Option GoErr :=
  if s.closeOnceFired then (s, none)
  else
    let errL := if s.hasListener then env.listenerCloseErr else none
    let conns := s.conns.map fun c => (Connection.Close c).1
    let err :=
      match errL with
      | some e => some e
      | none => env.removeAllErr
    ({ s with closeOnceFired := true, doneClosed := true, conns := conns,
              removeAllCalled := true },
     err)

/-! ## Client core (`client` package)

The client's transport endpoints are modelled as numbered handles in a
`Transports` world: `dialed` lists handles created by successful `net.Dial`
calls, `shut` lists handles whose `Close` has been invoked.  `Client`
mirrors the `Client` struct: the `done` channel (`closed`), the current
connection handle (`conn`, `none` when `c.conn == nil`), the `Reconnect`
configuration flag, and the context map. -/

structure Transports where
  dialed : List Nat
  shut : List Nat

/-- A transport handle is open if it was dialed and never closed. -/
def Transports.IsOpen (w : Transports) (t : Nat) : Prop :=
  t ∈ w.dialed ∧ t ∉ w.shut

instance (w : Transports) (t : Nat) : Decidable (w.IsOpen t) := by
  unfold Transports.IsOpen; infer_instance

structure Client where
  closed : Bool
  conn : Option Nat
  reconnect : Bool
  context : CtxMap

/-- `Client.Connect`: fails with `ErrClientClosed` if the client is closed;
otherwise dials (the dial's outcome — a fresh transport handle or a failure —
is the `dial` argument) and on success unconditionally stores the new
connection handle, leaving any previously stored transport untouched. -/
def Client.Connect (s : Client) (w : Transports) (dial : Option Nat) :
    Client × Transports × Option GoErr :=
  if s.closed then (s, w, some GoErr.clientClosed)
  else
    match dial with
    | none => (s, w, some GoErr.dialFailed)
    | some t => ({ s with conn := some t }, { w with dialed := t :: w.dialed }, none)

/-- The state effect of `Client.Close` (first call): closes `done` and, when a
connection is held, closes that transport and clears the reference.  (The
error it returns — the transport's close result — is not needed by any claim
and is omitted.) -/
def Client.CloseEffect (s : Client) (w : Transports) :
    Client × Transports :=
  if s.closed then (s, w)
  else
    match s.conn with
    | none => ({ s with closed := true }, w)
    | some t => ({ s with closed := true, conn := none }, { w with shut := t :: w.shut })

/-- One iteration's environment in `ConnectWithRetry`: the outcome of this
iteration's `net.Dial`, and whether a concurrent `Client.Close` fires during
the reconnect-delay wait that follows a failed attempt. -/
structure RetryStep where
  dial : Option Nat
  closedDuringWait : Bool

/-- `Client.ConnectWithRetry` over a trace of per-iteration environments:
attempt `Connect`; return `nil` on success; if `Reconnect` is disabled return
`Connect`'s error; otherwise wait — if the client is closed during the wait,
return `ErrClientClosed` (after the concurrent `Close`'s state effect), else
loop.  `none` means the trace ran out while the loop was still retrying. -/
def Client.ConnectWithRetry (s : Client) (w : Transports) :
    List RetryStep → Option (Client × Transports × Option GoErr)
  | [] => none
  | step :: rest =>
    let att := Client.Connect s w step.dial
    match att.2.2 with
    | none => some (att.1, att.2.1, none)
    | some err =>
      if !att.1.reconnect then some (att.1, att.2.1, some err)
      else if step.closedDuringWait then
        let cl := Client.CloseEffect att.1 att.2.1
        some (cl.1, cl.2, some GoErr.clientClosed)
      else Client.ConnectWithRetry att.1 att.2.1 rest

/-- `Client.Send`: returns `ErrNotConnected` when no connection is held;
otherwise builds the envelope (wrapped marshal error on failure) and encodes
it onto the connection, `writeFails` being the transport write's outcome
(wrapped write error). -/
def Client.Send (s : Client) (writeFails : Bool) (msgType : String)
    (payload : GoValue) : Option GoErr :=
  match s.conn with
  | none => some GoErr.notConnected
  | some _ =>
    match NewMessage msgType payload with
    | none => some GoErr.marshalFailed
    | some _ => if writeFails then some GoErr.writeFailed else none

/-- `Client.GetContext`. -/
def Client.GetContext (s : Client) (k : String) : Option GoValue :=
  ctxGet s.context k

/-- `Client.SetContext`. -/
def Client.SetContext (s : Client) (k : String) (v : GoValue) : Client :=
  { s with context := ctxSet s.context k v }

/-! ## Broadcast (`server` package) -/

/-- Observable outcome of one `Server.Broadcast` call: the returned error, the
connection ids on which a send was attempted (in registry order), and the ids
whose send failed and was therefore logged. -/
structure BroadcastOutcome where
  result : Option GoErr
  attempted : List String
  loggedFailures : List String

/-- `Server.Broadcast`: builds one envelope with `NewMessage`, returning its
error on failure; otherwise, under the read lock, calls `conn.Send(msg.Type,
msg.Payload)` on every registered connection, logging (never returning)
per-connection failures, and returns `nil`. -/
def Server.Broadcast (conns : List Connection) (msgType : String)
    (payload : GoValue) : BroadcastOutcome :=
  match NewMessage msgType payload with
  | none => { result := some GoErr.marshalFailed, attempted := [], loggedFailures := [] }
  | some msg =>
    let sends := conns.map fun c => (c.id, Connection.Send c msg.type (GoValue.jval msg.Payload))
    { result := none
      attempted := sends.map Prod.fst
      loggedFailures := (sends.filter fun p => p.2.isSome).map Prod.fst }

/-! ## Helper lemmas -/

theorem int64wrap_eq_self (x : Int) (h0 : 0 ≤ x) (h1 : x < 2 ^ 63) :
    int64wrap x = x := by
  unfold int64wrap
  omega

theorem readCounts_sum_nonneg (rs : List (Nat × Option GoErr)) :
    0 ≤ (rs.map fun r => (r.1 : Int)).sum := by
  apply List.sum_nonneg
  intro x hx
  rcases List.mem_map.mp hx with ⟨r, _, hrx⟩
  omega

theorem sum_take_le_sum_take (l : List Int) (hnn : ∀ x ∈ l, 0 ≤ x) {m n : Nat}
    (hmn : m ≤ n) : (l.take m).sum ≤ (l.take n).sum := by
  have h1 : (l.take n).take m = l.take m := by
    rw [List.take_take, Nat.min_eq_left hmn]
  have h2 := List.sum_take_add_sum_drop (l.take n) m
  have h3 : 0 ≤ ((l.take n).drop m).sum := by
    apply List.sum_nonneg
    intro x hx
    exact hnn x (List.mem_of_mem_take (List.mem_of_mem_drop hx))
  rw [h1] at h2
  omega

/-- Characterization of every result returned across a sequence of
`LimitedReader.Read` calls, for an arbitrary starting `consumed` value. -/
theorem runReads_getD (L : Int) :
    ∀ (rs : List (Nat × Option GoErr)) (c : Int), 0 ≤ c →
      c + (rs.map fun r => (r.1 : Int)).sum < 2 ^ 63 →
      ∀ i, i < rs.length →
        (LimitedReader.runReads ⟨L, c⟩ rs).getD i (0, none) =
          (if L < c + ((rs.take (i + 1)).map fun r => (r.1 : Int)).sum
           then ((rs.getD i (0, none)).1, some (GoErr.limitExceeded L))
           else rs.getD i (0, none)) := by
  intro rs
  induction rs with
  | nil => intro c _ _ i hi; simp at hi
  | cons r rs ih =>
    intro c hc hsum i hi
    obtain ⟨n, e⟩ := r
    have hrest : 0 ≤ (rs.map fun r => (r.1 : Int)).sum := readCounts_sum_nonneg rs
    have hwrap : int64wrap (c + (n : Int)) = c + (n : Int) := by
      apply int64wrap_eq_self
      · omega
      · simp only [List.map_cons, List.sum_cons] at hsum
        omega
    have hstep : LimitedReader.Read ⟨L, c⟩ (n, e) =
        (⟨L, c + (n : Int)⟩,
         if L < c + (n : Int) then (n, some (GoErr.limitExceeded L)) else (n, e)) := by
      simp only [LimitedReader.Read, hwrap]
      by_cases h : L < c + (n : Int) <;> simp [h]
    match i with
    | 0 =>
      simp only [LimitedReader.runReads, hstep, List.getD_cons_zero, List.take_succ_cons,
        List.take_zero, List.map_cons, List.map_nil, List.sum_cons, List.sum_nil, add_zero]
    | i + 1 =>
      have hi1 : i < rs.length := by simpa using hi
      have hsum1 : c + (n : Int) + (rs.map fun r => (r.1 : Int)).sum < 2 ^ 63 := by
        simp only [List.map_cons, List.sum_cons] at hsum
        omega
      have hrec := ih (c + (n : Int)) (by omega) hsum1 i hi1
      simp only [LimitedReader.runReads, hstep, List.getD_cons_succ, List.take_succ_cons,
        List.map_cons, List.sum_cons]
      rw [hrec]
      have harith : c + ((n : Int) + ((rs.take (i + 1)).map fun r => (r.1 : Int)).sum) =
          c + (n : Int) + ((rs.take (i + 1)).map fun r => (r.1 : Int)).sum := by ring
      rw [harith]

/-- Claim C1: for every wrapped byte source (modelled as the per-call results
`rs` it would deliver) and configured limit `L`, `LimitedReader.Read` returns
the size-limit error on exactly those calls after which the cumulative number
of bytes delivered exceeds `L` — the triggering call and every subsequent call
return the error alongside the bytes read in that call — and on every call
after which the cumulative total is still at most `L` it returns the
underlying source's byte count and error unchanged.  The hypothesis bounds the
cumulative count below `2 ^ 63` so that the Go `int64` accumulator does not
overflow. -/
theorem limitedReader_read_spec (L : Int) (rs : List (Nat × Option GoErr))
    (hsum : (rs.map fun r => (r.1 : Int)).sum < 2 ^ 63) :
    (∀ i, i < rs.length →
      ((NewLimitedReader L).runReads rs).getD i (0, none) =
        (if L < ((rs.take (i + 1)).map fun r => (r.1 : Int)).sum
         then ((rs.getD i (0, none)).1, some (GoErr.limitExceeded L))
         else rs.getD i (0, none))) ∧
    (∀ i j, i ≤ j → j < rs.length →
      L < ((rs.take (i + 1)).map fun r => (r.1 : Int)).sum →
      (((NewLimitedReader L).runReads rs).getD j (0, none)).2 =
        some (GoErr.limitExceeded L)) := by
  have hmain : ∀ i, i < rs.length →
      ((NewLimitedReader L).runReads rs).getD i (0, none) =
        (if L < ((rs.take (i + 1)).map fun r => (r.1 : Int)).sum
         then ((rs.getD i (0, none)).1, some (GoErr.limitExceeded L))
         else rs.getD i (0, none)) := by
    intro i hi
    have h := runReads_getD L rs 0 le_rfl (by simpa using hsum) i hi
    simpa [NewLimitedReader] using h
  refine ⟨hmain, ?_⟩
  intro i j hij hj hlt
  have hmono : ((rs.take (i + 1)).map fun r => (r.1 : Int)).sum ≤
      ((rs.take (j + 1)).map fun r => (r.1 : Int)).sum := by
    rw [List.map_take, List.map_take]
    apply sum_take_le_sum_take
    · intro x hx
      rcases List.mem_map.mp hx with ⟨r, _, hrx⟩
      omega
    · omega
  have hcond : L < ((rs.take (j + 1)).map fun r => (r.1 : Int)).sum := lt_of_lt_of_le hlt hmono
  rw [hmain j hj, if_pos hcond]

/-- Witness for C1 at limit 2 with underlying results `(1, nil)`, `(2, EOF)`,
`(0, nil)`: call 0 (cumulative 1 ≤ 2) passes through unchanged, call 1
(cumulative 3 > 2) returns the bytes read together with the size-limit error,
and call 2 still returns the size-limit error. -/
theorem limitedReader_read_spec_witness :
    ((NewLimitedReader 2).runReads [(1, none), (2, some GoErr.eof), (0, none)]).getD 0 (0, none) =
      (1, none) ∧
    ((NewLimitedReader 2).runReads [(1, none), (2, some GoErr.eof), (0, none)]).getD 1 (0, none) =
      (2, some (GoErr.limitExceeded 2)) ∧
    (((NewLimitedReader 2).runReads [(1, none), (2, some GoErr.eof), (0, none)]).getD 2 (0, none)).2 =
      some (GoErr.limitExceeded 2) := by
  have h := limitedReader_read_spec 2 [(1, none), (2, some GoErr.eof), (0, none)] (by decide)
  refine ⟨?_, ?_, ?_⟩
  · exact (h.1 0 (by decide)).trans (by decide)
  · exact (h.1 1 (by decide)).trans (by decide)
  · exact h.2 1 2 (by decide) (by decide) (by decide)

/-- Claim C2: for every message type `t` and value `v`, `NewMessage t v`
succeeds if and only if `v` is serializable; on success the message carries
`t` as its type, `UnmarshalPayload` with `v`'s shape as target recovers `v`,
repeated `UnmarshalPayload` calls return identical results, and the call
leaves the message unchanged. -/
theorem newMessage_roundtrip (t : String) (v : GoValue) :
    ((NewMessage t v).isSome ↔ Serializable v) ∧
    (∀ m, NewMessage t v = some m →
      m.type = t ∧
      m.UnmarshalPayloadCall.1 = some v ∧
      m.UnmarshalPayloadCall.2 = m ∧
      m.UnmarshalPayloadCall.2.UnmarshalPayloadCall.1 = m.UnmarshalPayloadCall.1) := by
  constructor
  · cases v <;> simp [NewMessage, Serializable, jsonMarshal]
  · intro m hm
    cases v with
    | jval j =>
      have hm1 : m = { type := t, Payload := j } := by
        simpa [NewMessage, jsonMarshal] using hm.symm
      subst hm1
      simp [Message.UnmarshalPayloadCall, jsonUnmarshal]
    | unsupported => simp [NewMessage, jsonMarshal] at hm

/-- Witness for C2 at `t = "ping"`, `v` the JSON string `"hi"`: construction
succeeds, the type is preserved, and decoding the payload recovers the
value. -/
theorem newMessage_roundtrip_witness :
    ({ type := "ping", Payload := JVal.str "hi" } : Message).type = "ping" ∧
    ({ type := "ping", Payload := JVal.str "hi" } : Message).UnmarshalPayloadCall.1 =
      some (GoValue.jval (JVal.str "hi")) ∧
    ({ type := "ping", Payload := JVal.str "hi" } : Message).UnmarshalPayloadCall.2 =
      { type := "ping", Payload := JVal.str "hi" } := by
  have h := (newMessage_roundtrip "ping" (GoValue.jval (JVal.str "hi"))).2
    { type := "ping", Payload := JVal.str "hi" } rfl
  exact ⟨h.1, h.2.1, h.2.2.1⟩

/-- Claim C8 counterexample: `NewMessage` performs no validation of the type
tag — called with the empty type string it succeeds and produces an envelope
whose type is empty, refuting the claim that every constructed envelope has a
non-empty type. -/
theorem newMessage_empty_type_cex :
    NewMessage "" (GoValue.jval JVal.null) =
      some { type := "", Payload := JVal.null } ∧
    ¬ ({ type := "", Payload := JVal.null } : Message).type ≠ "" :=
  ⟨rfl, fun h => h rfl⟩

/-- Claim C8 (amended): every envelope produced by `NewMessage` carries
exactly the type argument it was given — so its type is non-empty if and only
if the given type argument is non-empty; no validation is performed. -/
theorem newMessage_type_preserved (t : String) (v : GoValue) (m : Message)
    (h : NewMessage t v = some m) : m.type = t ∧ (m.type ≠ "" ↔ t ≠ "") := by
  cases v with
  | jval j =>
    have hm1 : m = { type := t, Payload := j } := by
      simpa [NewMessage, jsonMarshal] using h.symm
    subst hm1
    exact ⟨rfl, Iff.rfl⟩
  | unsupported => simp [NewMessage, jsonMarshal] at h

/-- Witness for the amended C8 at type `"chat"`. -/
theorem newMessage_type_preserved_witness :
    ({ type := "chat", Payload := JVal.null } : Message).type = "chat" ∧
    (({ type := "chat", Payload := JVal.null } : Message).type ≠ "" ↔
      ("chat" : String) ≠ "") :=
  newMessage_type_preserved "chat" (GoValue.jval JVal.null)
    { type := "chat", Payload := JVal.null } rfl

/-! ## Context store (claim C9) -/

theorem ctxGet_eq_none (m : CtxMap) (k : String) (h : ∀ p ∈ m, p.1 ≠ k) :
    ctxGet m k = none := by
  induction m with
  | nil => rfl
  | cons p rest ih =>
    obtain ⟨k1, v⟩ := p
    have hk1 : k1 ≠ k := h (k1, v) (List.mem_cons_self _ _)
    simp only [ctxGet, if_neg hk1]
    exact ih fun q hq => h q (List.mem_cons_of_mem _ hq)

/-- Claim C9: on both a server-side `Connection` and a `Client`,
`SetContext k v` followed by `GetContext k` returns the value (the `(v, true)`
map result); `GetContext` on a key never set returns the `(_, false)` result;
a later `SetContext` on the same key overwrites the earlier value; and a
`SetContext` changes no other key's binding. -/
theorem context_store_spec (c : Connection) (s : Client) (k k1 : String)
    (v v2 : GoValue) :
    ((c.SetContext k v).GetContext k = some v) ∧
    (k1 ≠ k → (c.SetContext k v).GetContext k1 = c.GetContext k1) ∧
    ((∀ p ∈ c.context, p.1 ≠ k) → c.GetContext k = none) ∧
    (((c.SetContext k v).SetContext k v2).GetContext k = some v2) ∧
    ((s.SetContext k v).GetContext k = some v) ∧
    (k1 ≠ k → (s.SetContext k v).GetContext k1 = s.GetContext k1) ∧
    ((∀ p ∈ s.context, p.1 ≠ k) → s.GetContext k = none) ∧
    (((s.SetContext k v).SetContext k v2).GetContext k = some v2) := by
  refine ⟨?_, ?_, ?_, ?_, ?_, ?_, ?_, ?_⟩
  · simp [Connection.SetContext, Connection.GetContext, ctxSet, ctxGet]
  · intro hne
    simp [Connection.SetContext, Connection.GetContext, ctxSet, ctxGet,
      if_neg (Ne.symm hne)]
  · exact fun h => ctxGet_eq_none c.context k h
  · simp [Connection.SetContext, Connection.GetContext, ctxSet, ctxGet]
  · simp [Client.SetContext, Client.GetContext, ctxSet, ctxGet]
  · intro hne
    simp [Client.SetContext, Client.GetContext, ctxSet, ctxGet,
      if_neg (Ne.symm hne)]
  · exact fun h => ctxGet_eq_none s.context k h
  · simp [Client.SetContext, Client.GetContext, ctxSet, ctxGet]

/-- Witness for C9 on a concrete connection and client with empty context
maps, keys `"k"` and `"j"`, values `"v"` and `"v2"`. -/
theorem context_store_spec_witness :
    ((Connection.mk "c1" false 0 none none []).SetContext "k"
        (GoValue.jval (JVal.str "v"))).GetContext "k" =
      some (GoValue.jval (JVal.str "v")) ∧
    ((Connection.mk "c1" false 0 none none []).SetContext "k"
        (GoValue.jval (JVal.str "v"))).GetContext "j" =
      (Connection.mk "c1" false 0 none none []).GetContext "j" ∧
    (Connection.mk "c1" false 0 none none []).GetContext "k" = none ∧
    ((Client.mk false none true []).SetContext "k"
        (GoValue.jval (JVal.str "v"))).GetContext "k" =
      some (GoValue.jval (JVal.str "v")) ∧
    (((Client.mk false none true []).SetContext "k"
        (GoValue.jval (JVal.str "v"))).SetContext "k"
        (GoValue.jval (JVal.str "v2"))).GetContext "k" =
      some (GoValue.jval (JVal.str "v2")) := by
  have h := context_store_spec (Connection.mk "c1" false 0 none none [])
    (Client.mk false none true []) "k" "j"
    (GoValue.jval (JVal.str "v")) (GoValue.jval (JVal.str "v2"))
  exact ⟨h.1, h.2.1 (by decide), h.2.2.1 (by simp), h.2.2.2.2.1, h.2.2.2.2.2.2.2⟩

/-! ## Broadcast (claim C3) -/

/-- Claim C3: `Server.Broadcast` returns an error if and only if constructing
the envelope fails (the payload is not serializable); for every registry of
connections, when construction succeeds a send is attempted on every
registered connection — a send failure on one connection does not prevent the
attempts on the remaining ones — per-connection failures are only logged, and
the call returns `nil`. -/
theorem broadcast_isolation (conns : List Connection) (t : String) (v : GoValue) :
    ((Server.Broadcast conns t v).result.isSome ↔ ¬ Serializable v) ∧
    (Serializable v →
      (Server.Broadcast conns t v).attempted = conns.map Connection.id ∧
      (Server.Broadcast conns t v).result = none ∧
      (Server.Broadcast conns t v).loggedFailures =
        (conns.filter fun c => c.sendWriteErr.isSome).map Connection.id) := by
  cases v with
  | unsupported =>
    refine ⟨by simp [Server.Broadcast, NewMessage, jsonMarshal, Serializable], ?_⟩
    intro h
    simp [Serializable, jsonMarshal] at h
  | jval j =>
    refine ⟨by simp [Server.Broadcast, NewMessage, jsonMarshal, Serializable], ?_⟩
    intro _
    refine ⟨?_, rfl, ?_⟩
    · simp [Server.Broadcast, NewMessage, jsonMarshal]
    · show ((conns.map fun c =>
          (c.id, Connection.Send c t (GoValue.jval j))).filter fun p => p.2.isSome).map
            Prod.fst = _
      induction conns with
      | nil => rfl
      | cons c rest ih =>
        simp only [Connection.Send, NewMessage, jsonMarshal] at ih
        by_cases hw : c.sendWriteErr.isSome <;>
          simp [Connection.Send, NewMessage, jsonMarshal, hw, List.filter_cons, ih]

/-- Witness for C3: two registered connections, the first with an
already-broken transport (its write fails); broadcast still attempts both, the
failure is logged for the first only, and the call returns `nil`. -/
theorem broadcast_isolation_witness :
    (Server.Broadcast
        [Connection.mk "a" false 0 none (some GoErr.writeFailed) [],
         Connection.mk "b" false 0 none none []] "chat"
        (GoValue.jval JVal.null)).attempted = ["a", "b"] ∧
    (Server.Broadcast
        [Connection.mk "a" false 0 none (some GoErr.writeFailed) [],
         Connection.mk "b" false 0 none none []] "chat"
        (GoValue.jval JVal.null)).result = none ∧
    (Server.Broadcast
        [Connection.mk "a" false 0 none (some GoErr.writeFailed) [],
         Connection.mk "b" false 0 none none []] "chat"
        (GoValue.jval JVal.null)).loggedFailures = ["a"] := by
  have h := (broadcast_isolation
    [Connection.mk "a" false 0 none (some GoErr.writeFailed) [],
     Connection.mk "b" false 0 none none []] "chat" (GoValue.jval JVal.null)).2
    (by decide)
  exact ⟨h.1, h.2.1, h.2.2⟩

/-! ## Client send (claim C4) -/

/-- Claim C4: `Client.Send` returns the distinct `ErrNotConnected` error value
exactly when the client holds no live connection reference; when a connection
exists the returned error (if any) is a marshal or a write error, never
`ErrNotConnected`, so callers can distinguish the two conditions. -/
theorem client_send_distinct_not_connected (s : Client) (wf : Bool) (t : String)
    (v : GoValue) :
    (Client.Send s wf t v = some GoErr.notConnected ↔ s.conn = none) ∧
    (s.conn ≠ none →
      Client.Send s wf t v = none ∨
      Client.Send s wf t v = some GoErr.marshalFailed ∨
      Client.Send s wf t v = some GoErr.writeFailed) := by
  cases hc : s.conn <;> cases v <;> cases wf <;>
    simp [Client.Send, NewMessage, jsonMarshal, hc]

/-- Witness for C4: a disconnected client gets `ErrNotConnected`; a connected
client with a failing transport write gets the (wrapped) write error, not
`ErrNotConnected`. -/
theorem client_send_distinct_not_connected_witness :
    Client.Send (Client.mk false none true []) false "t" (GoValue.jval JVal.null) =
      some GoErr.notConnected ∧
    (Client.Send (Client.mk false (some 0) true []) true "t" (GoValue.jval JVal.null) = none ∨
     Client.Send (Client.mk false (some 0) true []) true "t" (GoValue.jval JVal.null) =
       some GoErr.marshalFailed ∨
     Client.Send (Client.mk false (some 0) true []) true "t" (GoValue.jval JVal.null) =
       some GoErr.writeFailed) := by
  constructor
  · exact (client_send_distinct_not_connected (Client.mk false none true []) false "t"
      (GoValue.jval JVal.null)).1.mpr rfl
  · exact (client_send_distinct_not_connected (Client.mk false (some 0) true []) true "t"
      (GoValue.jval JVal.null)).2 (fun h => Option.noConfusion h)

/-! ## Server stop (claim C5) -/

/-- A server as `NewServer` returns it, before `Start`: no `closeOnce` fired,
`done` open, no listener, no connections, `os.RemoveAll` not yet invoked. -/
def freshServer : Server :=
  { closeOnceFired := false, doneClosed := false, hasListener := false,
    conns := [], removeAllCalled := false }

/-- Claim C5 counterexample: calling `Stop` before `Start` is not a no-op
returning `nil` — it fires `closeOnce`, signals shutdown and invokes
`os.RemoveAll` on the socket path, and returns that removal's failure when it
fails. -/
theorem server_stop_before_start_cex :
    (Server.Stop freshServer ⟨none, some GoErr.removeFailed⟩).2 =
      some GoErr.removeFailed ∧
    (Server.Stop freshServer ⟨none, some GoErr.removeFailed⟩).1.doneClosed = true ∧
    freshServer.doneClosed = false :=
  ⟨rfl, rfl, rfl⟩

theorem close_doneClosed (c : Connection) : (Connection.Close c).1.doneClosed = true := by
  by_cases h : c.doneClosed <;> simp [Connection.Close, h]

/-- Claim C5 (amended): `Server.Stop` has first-call-wins semantics — the
first call, whether or not `Start` ever ran, signals shutdown, closes the
listening endpoint when one exists, closes every registered connection, and
invokes removal of the socket path, returning the listener-close failure or,
failing that, the removal failure; every subsequent call performs no action
and returns `nil`; connection-close errors are never surfaced to the
caller. -/
theorem server_stop_spec (s : Server) (env env2 : StopEnv) :
    (s.closeOnceFired = true → Server.Stop s env = (s, none)) ∧
    (s.closeOnceFired = false →
      (Server.Stop s env).1.doneClosed = true ∧
      (Server.Stop s env).1.closeOnceFired = true ∧
      (∀ c ∈ (Server.Stop s env).1.conns, c.doneClosed = true) ∧
      (Server.Stop s env).1.removeAllCalled = true ∧
      ((Server.Stop s env).2 =
        match (if s.hasListener then env.listenerCloseErr else none) with
        | some e => some e
        | none => env.removeAllErr) ∧
      Server.Stop (Server.Stop s env).1 env2 = ((Server.Stop s env).1, none)) := by
  constructor
  · intro h
    simp [Server.Stop, h]
  · intro h
    refine ⟨?_, ?_, ?_, ?_, ?_, ?_⟩
    · simp [Server.Stop, h]
    · simp [Server.Stop, h]
    · intro c hc
      simp only [Server.Stop, h, Bool.false_eq_true, if_false] at hc
      rcases List.mem_map.mp hc with ⟨c0, _, hc0⟩
      rw [← hc0]
      exact close_doneClosed c0
    · simp [Server.Stop, h]
    · simp [Server.Stop, h]
    · have hfired : (Server.Stop s env).1.closeOnceFired = true := by
        simp [Server.Stop, h]
      generalize hX : (Server.Stop s env).1 = X at hfired ⊢
      simp [Server.Stop, hfired]

/-- Witness for C5 (amended): a started server holding one open connection
whose transport close would fail; the first `Stop` closes everything and
returns the removal failure (the connection-close error is not surfaced), the
second `Stop` is a no-op returning `nil`. -/
theorem server_stop_spec_witness :
    (Server.Stop
        (Server.mk false false true
          [Connection.mk "a" false 0 (some GoErr.transportCloseFailed) none []] false)
        ⟨none, some GoErr.removeFailed⟩).1.doneClosed = true ∧
    (∀ c ∈ (Server.Stop
        (Server.mk false false true
          [Connection.mk "a" false 0 (some GoErr.transportCloseFailed) none []] false)
        ⟨none, some GoErr.removeFailed⟩).1.conns, c.doneClosed = true) ∧
    (Server.Stop
        (Server.mk false false true
          [Connection.mk "a" false 0 (some GoErr.transportCloseFailed) none []] false)
        ⟨none, some GoErr.removeFailed⟩).2 = some GoErr.removeFailed ∧
    Server.Stop
        (Server.Stop
          (Server.mk false false true
            [Connection.mk "a" false 0 (some GoErr.transportCloseFailed) none []] false)
          ⟨none, some GoErr.removeFailed⟩).1 ⟨none, none⟩ =
      ((Server.Stop
          (Server.mk false false true
            [Connection.mk "a" false 0 (some GoErr.transportCloseFailed) none []] false)
          ⟨none, some GoErr.removeFailed⟩).1, none) := by
  have h := (server_stop_spec
    (Server.mk false false true
      [Connection.mk "a" false 0 (some GoErr.transportCloseFailed) none []] false)
    ⟨none, some GoErr.removeFailed⟩ ⟨none, none⟩).2 rfl
  exact ⟨h.1, h.2.2.1, h.2.2.2.2.1, h.2.2.2.2.2⟩

/-! ## Connection close (claim C6) -/

theorem closeCalls_after_closed (n : Nat) (c : Connection) (h : c.doneClosed = true) :
    Connection.closeCalls n c = (c, List.replicate n none) := by
  induction n with
  | zero => rfl
  | succ n ih => simp [Connection.closeCalls, Connection.Close, h, ih, List.replicate_succ]

/-- Claim C6: `Connection.Close` is idempotent — across any mutex-serialized
sequence of `n + 1` calls starting from an unclosed connection, the first call
transitions the closed flag from false to true, releases the transport exactly
once and returns the transport's close error, while every subsequent call is a
no-op returning `nil`.  (The Go mutex serializes simultaneous callers, so every
concurrent execution is one such sequence.) -/
theorem connection_close_once (c : Connection) (n : Nat)
    (h1 : c.doneClosed = false) (h2 : c.transportCloseCount = 0) :
    (Connection.closeCalls (n + 1) c).2 =
      c.transportCloseErr :: List.replicate n none ∧
    (Connection.closeCalls (n + 1) c).1.transportCloseCount = 1 ∧
    (Connection.closeCalls (n + 1) c).1.doneClosed = true := by
  have hfirst : Connection.Close c =
      ({ c with doneClosed := true, transportCloseCount := 1 }, c.transportCloseErr) := by
    simp [Connection.Close, h1, h2]
  have hrest := closeCalls_after_closed n
    { c with doneClosed := true, transportCloseCount := 1 } rfl
  refine ⟨?_, ?_, ?_⟩ <;> simp [Connection.closeCalls, hfirst, hrest]

/-- Witness for C6: three serialized `Close` calls on a fresh connection whose
transport close fails — the first call returns that failure, the next two
return `nil`, and the transport is released exactly once. -/
theorem connection_close_once_witness :
    (Connection.closeCalls 3
        (Connection.mk "a" false 0 (some GoErr.transportCloseFailed) none [])).2 =
      [some GoErr.transportCloseFailed, none, none] ∧
    (Connection.closeCalls 3
        (Connection.mk "a" false 0 (some GoErr.transportCloseFailed) none [])).1.transportCloseCount = 1 ∧
    (Connection.closeCalls 3
        (Connection.mk "a" false 0 (some GoErr.transportCloseFailed) none [])).1.doneClosed = true := by
  have h := connection_close_once
    (Connection.mk "a" false 0 (some GoErr.transportCloseFailed) none []) 2 rfl rfl
  exact ⟨h.1, h.2.1, h.2.2⟩

/-! ## Client connect / reconnect (claims C7 and C10) -/

/-- Claim C7: when reconnection is disabled, `Client.ConnectWithRetry` returns
exactly what the single `Client.Connect` attempt returns — same error and same
state/transport change; when reconnection is enabled (on a client not yet
closed), it repeatedly attempts `Connect`, returns `nil` with the connection
stored on the first successful attempt, and returns `ErrClientClosed`
(after the concurrent close takes effect) when the client is closed during the
wait between attempts.  The wait between failed attempts is where each trace
step's `closedDuringWait` flag is observed. -/
theorem connectWithRetry_spec (s : Client) (w : Transports) :
    (s.reconnect = false → ∀ (step : RetryStep) (rest : List RetryStep),
      Client.ConnectWithRetry s w (step :: rest) =
        some (Client.Connect s w step.dial)) ∧
    (s.reconnect = true → s.closed = false → ∀ (k t : Nat) (rest : List RetryStep),
      Client.ConnectWithRetry s w
          (List.replicate k ⟨none, false⟩ ++ ⟨some t, false⟩ :: rest) =
        some ({ s with conn := some t }, { w with dialed := t :: w.dialed }, none)) ∧
    (s.reconnect = true → s.closed = false → ∀ (k : Nat) (rest : List RetryStep),
      Client.ConnectWithRetry s w
          (List.replicate k ⟨none, false⟩ ++ ⟨none, true⟩ :: rest) =
        some ((Client.CloseEffect s w).1, (Client.CloseEffect s w).2,
              some GoErr.clientClosed)) := by
  refine ⟨?_, ?_, ?_⟩
  · intro hrec step rest
    cases hd : step.dial <;> by_cases hcl : s.closed <;>
      simp [Client.ConnectWithRetry, Client.Connect, hcl, hrec, hd]
  · intro hrec hcl k t rest
    induction k with
    | zero =>
      simp [Client.ConnectWithRetry, Client.Connect, hcl]
    | succ k ih =>
      rw [List.replicate_succ, List.cons_append]
      simpa [Client.ConnectWithRetry, Client.Connect, hcl, hrec] using ih
  · intro hrec hcl k rest
    induction k with
    | zero =>
      simp [Client.ConnectWithRetry, Client.Connect, hcl, hrec]
    | succ k ih =>
      rw [List.replicate_succ, List.cons_append]
      simpa [Client.ConnectWithRetry, Client.Connect, hcl, hrec] using ih

/-- Witness for C7 on concrete clients: with reconnection disabled a failed
dial yields exactly the single `Connect` outcome; with reconnection enabled,
one failed dial followed by a successful dial of transport `7` yields `nil`
with the connection stored, and one failed dial followed by a close during the
wait yields `ErrClientClosed`. -/
theorem connectWithRetry_spec_witness :
    Client.ConnectWithRetry (Client.mk false none false []) (Transports.mk [] [])
        [⟨none, false⟩] =
      some (Client.Connect (Client.mk false none false []) (Transports.mk [] []) none) ∧
    Client.ConnectWithRetry (Client.mk false none true []) (Transports.mk [] [])
        [⟨none, false⟩, ⟨some 7, false⟩] =
      some (Client.mk false (some 7) true [], Transports.mk [7] [], none) ∧
    Client.ConnectWithRetry (Client.mk false none true []) (Transports.mk [] [])
        [⟨none, false⟩, ⟨none, true⟩] =
      some (Client.mk true none true [], Transports.mk [] [], some GoErr.clientClosed) := by
  have h := connectWithRetry_spec (Client.mk false none true []) (Transports.mk [] [])
  have h0 := connectWithRetry_spec (Client.mk false none false []) (Transports.mk [] [])
  refine ⟨h0.1 rfl ⟨none, false⟩ [], ?_, ?_⟩
  · exact h.2.1 rfl rfl 1 7 []
  · exact h.2.2 rfl rfl 1 []

/-- Claim C10 (implicit): `Client.Connect` on a non-closed client dials and
unconditionally overwrites the stored connection reference even when a live
connection already exists; the previously stored transport is neither checked
nor closed, so after a second successful `Connect` the first transport is
still open and merely unreachable through the client. -/
theorem connect_overwrite_leaves_transport_open (s : Client) (w : Transports)
    (t1 t2 : Nat) (hcl : s.closed = false) (hc : s.conn = some t1)
    (ho : w.IsOpen t1) (hne : t2 ≠ t1) :
    (Client.Connect s w (some t2)).2.2 = none ∧
    (Client.Connect s w (some t2)).1.conn = some t2 ∧
    (Client.Connect s w (some t2)).2.1.IsOpen t1 ∧
    (Client.Connect s w (some t2)).1.conn ≠ some t1 := by
  refine ⟨?_, ?_, ?_, ?_⟩
  · simp [Client.Connect, hcl]
  · simp [Client.Connect, hcl]
  · simp only [Client.Connect, hcl, Bool.false_eq_true, if_false]
    exact ⟨List.mem_cons_of_mem _ ho.1, ho.2⟩
  · simp [Client.Connect, hcl, hne]

/-- Witness for C10: a client connected to open transport `1` reconnects to
transport `2`; transport `1` remains open but is no longer referenced. -/
theorem connect_overwrite_leaves_transport_open_witness :
    (Client.Connect (Client.mk false (some 1) true []) (Transports.mk [1] [])
        (some 2)).2.2 = none ∧
    (Client.Connect (Client.mk false (some 1) true []) (Transports.mk [1] [])
        (some 2)).1.conn = some 2 ∧
    (Client.Connect (Client.mk false (some 1) true []) (Transports.mk [1] [])
        (some 2)).2.1.IsOpen 1 ∧
    (Client.Connect (Client.mk false (some 1) true []) (Transports.mk [1] [])
        (some 2)).1.conn ≠ some 1 :=
  connect_overwrite_leaves_transport_open (Client.mk false (some 1) true [])
    (Transports.mk [1] []) 1 2 rfl rfl (by decide) (by decide)

end Conduit
